import Mathlib

/-!
Shallow embedding of the mlpack preprocessing scaling selector
(`src/mlpack/methods/preprocess/scaling_model_impl.hpp`) and of the Elliot
activation function
(`src/mlpack/methods/ann/activation_functions/elliot_function.hpp`).

Heap-allocated strategy objects are modelled with an explicit heap
(`Heap`): `new` is `Heap.alloc`, `delete` is `Heap.free`, and the
selector's six raw pointers are `Option Nat` addresses.  Matrices are
lists of rows of rationals.  The six scaling strategies are external
collaborators whose numeric formulas are out of scope, so a strategy
instance is modelled by its constructor parameters plus the training
data its parameters were fitted from, and its forward/inverse transforms
are modelled abstractly as functions of the fitted parameters and the
input.
-/

namespace Mlpack

/-- Matrices, abstractly: a list of rows of rationals. -/
abbrev Mat := List (List ℚ)

/-- Modelled from the spec: the `ScalerTypes` enumeration is declared in
`scaling_model.hpp`, which is not among the sources; per the spec the tag
is one of NONE, STANDARD, MINMAX, MEAN, MAXABS, PCA, ZCA, and a freshly
constructed selector carries NONE. -/
inductive ScalerTag
  | none
  | standard
  | minmax
  | mean
  | maxabs
  | pca
  | zca
deriving DecidableEq

/-- Modelled from the spec: a strategy instance is characterized by its
constructor parameters and, once its fit routine has run, the training
data its parameters were computed from (the concrete numeric formulas of
the six strategies are out of scope per spec section 1). -/
inductive Scaler
  | standard (fitted : Option Mat)
  | minmax (minValue maxValue : Int) (fitted : Option Mat)
  | mean (fitted : Option Mat)
  | maxabs (fitted : Option Mat)
  | pca (epsilon : ℚ) (fitted : Option Mat)
  | zca (epsilon : ℚ) (fitted : Option Mat)
deriving DecidableEq

/-- The training data a strategy instance has been fitted on, if any. -/
def Scaler.fitted : Scaler → Option Mat
  | .standard f => f
  | .minmax _ _ f => f
  | .mean f => f
  | .maxabs f => f
  | .pca _ f => f
  | .zca _ f => f

/-- Record a successful fit on data `d`, keeping the parameters. -/
def Scaler.withFitted : Scaler → Mat → Scaler
  | .standard _, d => .standard (some d)
  | .minmax a b _, d => .minmax a b (some d)
  | .mean _, d => .mean (some d)
  | .maxabs _, d => .maxabs (some d)
  | .pca e _, d => .pca e (some d)
  | .zca e _, d => .zca e (some d)

/-- Modelled from the spec: a strategy's fit routine may fail on
malformed input; the failure condition is abstracted as the input matrix
being empty. -/
def matOk (d : Mat) : Bool := !d.isEmpty

/-- The strategy contract `Fit(matrix) -> void | error`, modelled from
the spec: on success the instance has learned from `d`. -/
def Scaler.fitOn (s : Scaler) (d : Mat) : Option Scaler :=
  if matOk d then some (s.withFitted d) else Option.none

/-- Modelled from the spec: the forward transform is a function of the
fitted parameters and the input (formulas out of scope); it is modelled
abstractly and fails when the instance is unfitted. -/
def Scaler.forward (s : Scaler) (input : Mat) : Option Mat :=
  s.fitted.map (fun d => input ++ d)

/-- Modelled from the spec: the inverse transform, symmetric to
`Scaler.forward`. -/
def Scaler.inverse (s : Scaler) (input : Mat) : Option Mat :=
  s.fitted.map (fun d => d ++ input)

/-- Association-list lookup for the heap contents. -/
def lookupMem : List (Nat × Scaler) → Nat → Option Scaler
  | [], _ => Option.none
  | (k, s) :: rest, a => if k = a then some s else lookupMem rest a

/-- Remove every binding of an address from the heap contents. -/
def eraseMem : List (Nat × Scaler) → Nat → List (Nat × Scaler)
  | [], _ => []
  | (k, s) :: rest, a =>
      if k = a then eraseMem rest a else (k, s) :: eraseMem rest a

/-- Overwrite every binding of an address in the heap contents. -/
def updateMem : List (Nat × Scaler) → Nat → Scaler → List (Nat × Scaler)
  | [], _, _ => []
  | (k, s) :: rest, a, s' =>
      if k = a then (a, s') :: updateMem rest a s'
      else (k, s) :: updateMem rest a s'

/-- An explicit heap of strategy objects: a fresh-address counter and the
allocated objects. -/
structure Heap where
  next : Nat
  mem : List (Nat × Scaler)
deriving DecidableEq

/-- The empty heap. -/
def Heap.empty : Heap := ⟨0, []⟩

/-- Dereference an address. -/
def Heap.lookup (h : Heap) (a : Nat) : Option Scaler := lookupMem h.mem a

/-- `delete p` — freeing a null pointer is a no-op, as in C++. -/
def Heap.free (h : Heap) : Option Nat → Heap
  | Option.none => h
  | some a => ⟨h.next, eraseMem h.mem a⟩

/-- `new` — returns the extended heap and the fresh address. -/
def Heap.alloc (h : Heap) (s : Scaler) : Heap × Nat :=
  (⟨h.next + 1, (h.next, s) :: h.mem⟩, h.next)

/-- Mutate the object at an address in place. -/
def Heap.update (h : Heap) (a : Nat) (s : Scaler) : Heap :=
  ⟨h.next, updateMem h.mem a s⟩

/-- The scaling selector (`ScalingModel` in the source): a tag, six raw
owned pointers (one slot per strategy kind), and the scalar
configuration fields. -/
structure ScalingModel where
  scalerType : ScalerTag
  minmaxscale : Option Nat
  maxabsscale : Option Nat
  meanscale : Option Nat
  standardscale : Option Nat
  pcascale : Option Nat
  zcascale : Option Nat
  minValue : Int
  maxValue : Int
  epsilon : ℚ
deriving DecidableEq

/-- The default epsilon value, `0.00005` as in the source's move
constructor. -/
def defaultEpsilon : ℚ := 1 / 20000

/-- `ScalingModel::ScalingModel(minvalue, maxvalue, epsilonvalue)`:
tag NONE (`scalerType(0)`), all six pointers null. -/
def ScalingModel.create (minvalue maxvalue : Int) (epsilonvalue : ℚ) :
    ScalingModel :=
  ⟨.none, Option.none, Option.none, Option.none, Option.none, Option.none,
    Option.none, minvalue, maxvalue, epsilonvalue⟩

/-- The default-empty selector state that the move constructor leaves
behind in its source (tag `0`, null pointers, bounds `0, 1`, epsilon
`0.00005`, source lines 73-82). -/
def ScalingModel.emptyState : ScalingModel :=
  ScalingModel.create 0 1 defaultEpsilon

/-- Modelled from the spec: the tag setter (the `ScalerType()` accessor
is declared in `scaling_model.hpp`, not among the sources). -/
def ScalingModel.setScalerType (m : ScalingModel) (t : ScalerTag) :
    ScalingModel :=
  { m with scalerType := t }

/-- The pointer slot associated with a tag. -/
def ScalingModel.slot (m : ScalingModel) : ScalerTag → Option Nat
  | .none => Option.none
  | .standard => m.standardscale
  | .minmax => m.minmaxscale
  | .mean => m.meanscale
  | .maxabs => m.maxabsscale
  | .pca => m.pcascale
  | .zca => m.zcascale

/-- Addresses of all currently owned strategy instances. -/
def ScalingModel.ownedAddrs (m : ScalingModel) : List Nat :=
  m.minmaxscale.toList ++ m.maxabsscale.toList ++ m.meanscale.toList ++
    m.standardscale.toList ++ m.pcascale.toList ++ m.zcascale.toList

/-- Number of currently owned strategy instances. -/
def ScalingModel.ownedCount (m : ScalingModel) : Nat := m.ownedAddrs.length

/-- One deep-copy step of the copy constructor / copy assignment:
`other.p == NULL ? NULL : new T(*other.p)`. -/
def copySlot (h : Heap) (sl : Option Nat) : Heap × Option Nat :=
  match sl with
  | Option.none => (h, Option.none)
  | some a =>
      match h.lookup a with
      | Option.none => (h, Option.none)
      | some s => ((h.alloc s).1, some (h.alloc s).2)

/-- Copy constructor (source lines 39-58): deep copy of each owned
instance in the source's order (minmax, maxabs, pca, zca, mean,
standard), scalar fields copied by value. -/
def ScalingModel.copyFrom (other : ScalingModel) (h : Heap) :
    ScalingModel × Heap :=
  let p1 := copySlot h other.minmaxscale
  let p2 := copySlot p1.1 other.maxabsscale
  let p3 := copySlot p2.1 other.pcascale
  let p4 := copySlot p3.1 other.zcascale
  let p5 := copySlot p4.1 other.meanscale
  let p6 := copySlot p5.1 other.standardscale
  (⟨other.scalerType, p1.2, p2.2, p5.2, p6.2, p3.2, p4.2,
    other.minValue, other.maxValue, other.epsilon⟩, p6.1)

/-- Move constructor (source lines 61-83): plain field transfer, then the
source object is reset to the default-empty state. -/
def ScalingModel.moveFrom (other : ScalingModel) :
    ScalingModel × ScalingModel :=
  (⟨other.scalerType, other.minmaxscale, other.maxabsscale, other.meanscale,
    other.standardscale, other.pcascale, other.zcascale,
    other.minValue, other.maxValue, other.epsilon⟩,
   ScalingModel.emptyState)

/-- Copy assignment operator (source lines 86-123).  `selfAssign` models
the `this == &other` pointer-identity test, which value semantics cannot
observe directly; per slot the source does `delete p; p = deep copy` in
the order minmax, maxabs, standard, mean, pca, zca. -/
def ScalingModel.copyAssign (self other : ScalingModel) (h : Heap)
    (selfAssign : Bool) : ScalingModel × Heap :=
  if selfAssign then (self, h)
  else
    let h1 := h.free self.minmaxscale
    let p1 := copySlot h1 other.minmaxscale
    let h2 := p1.1.free self.maxabsscale
    let p2 := copySlot h2 other.maxabsscale
    let h3 := p2.1.free self.standardscale
    let p3 := copySlot h3 other.standardscale
    let h4 := p3.1.free self.meanscale
    let p4 := copySlot h4 other.meanscale
    let h5 := p4.1.free self.pcascale
    let p5 := copySlot h5 other.pcascale
    let h6 := p5.1.free self.zcascale
    let p6 := copySlot h6 other.zcascale
    (⟨other.scalerType, p1.2, p2.2, p4.2, p3.2, p5.2, p6.2,
      other.minValue, other.maxValue, other.epsilon⟩, p6.1)

/-- Destructor (source lines 125-133): release all six slots. -/
def ScalingModel.destroy (m : ScalingModel) (h : Heap) : Heap :=
  (((((h.free m.minmaxscale).free m.maxabsscale).free m.standardscale).free
      m.meanscale).free m.pcascale).free m.zcascale

/-- The fresh strategy instance `Fit` constructs for a tag: MINMAX takes
`(minValue, maxValue)`, PCA and ZCA take `epsilon`, the others take no
parameters.  The NONE case is unreachable because `Fit` constructs
nothing for NONE. -/
def ScalingModel.configured (m : ScalingModel) : ScalerTag → Scaler
  | .minmax => .minmax m.minValue m.maxValue Option.none
  | .pca => .pca m.epsilon Option.none
  | .zca => .zca m.epsilon Option.none
  | .standard => .standard Option.none
  | .mean => .mean Option.none
  | .maxabs => .maxabs Option.none
  | .none => .standard Option.none

/-- One branch of `Fit`:
`delete slot; slot = new S(args); slot->Fit(input);`.
If the strategy's fit routine fails, the failure propagates after the
new (still unfitted) instance has already been installed; the Bool
reports whether the delegated fit succeeded. -/
def fitStep (h : Heap) (sl : Option Nat) (fresh : Scaler) (input : Mat) :
    (Heap × Nat) × Bool :=
  let h0 := h.free sl
  let p := h0.alloc fresh
  match fresh.fitOn input with
  | some s => ((p.1.update p.2 s, p.2), true)
  | Option.none => ((p.1, p.2), false)

/-- `ScalingModel::Fit` (source lines 135-174): dispatch on the tag,
replace the slot of that kind with a freshly constructed, configured
instance and fit it on the input; the trailing Bool reports whether the
delegated fit succeeded (a fall-through on NONE reports success since
nothing is attempted). -/
def ScalingModel.fit (m : ScalingModel) (h : Heap) (input : Mat) :
    (ScalingModel × Heap) × Bool :=
  match m.scalerType with
  | .none => ((m, h), true)
  | .standard =>
      let r := fitStep h m.standardscale (m.configured .standard) input
      (({ m with standardscale := some r.1.2 }, r.1.1), r.2)
  | .minmax =>
      let r := fitStep h m.minmaxscale (m.configured .minmax) input
      (({ m with minmaxscale := some r.1.2 }, r.1.1), r.2)
  | .mean =>
      let r := fitStep h m.meanscale (m.configured .mean) input
      (({ m with meanscale := some r.1.2 }, r.1.1), r.2)
  | .maxabs =>
      let r := fitStep h m.maxabsscale (m.configured .maxabs) input
      (({ m with maxabsscale := some r.1.2 }, r.1.1), r.2)
  | .pca =>
      let r := fitStep h m.pcascale (m.configured .pca) input
      (({ m with pcascale := some r.1.2 }, r.1.1), r.2)
  | .zca =>
      let r := fitStep h m.zcascale (m.configured .zca) input
      (({ m with zcascale := some r.1.2 }, r.1.1), r.2)

/-- `ScalingModel::Transform` (source lines 176-203): delegate to the
slot matching the tag.  `some output` models the silent fall-through on
NONE (the output parameter is left untouched and no error is raised);
`Option.none` models the null or dangling pointer dereference, or a
failure of the delegated transform. -/
def ScalingModel.transform (m : ScalingModel) (h : Heap)
    (input output : Mat) : Option Mat :=
  if m.scalerType = ScalerTag.none then some output
  else
    match m.slot m.scalerType with
    | Option.none => Option.none
    | some a =>
        match h.lookup a with
        | Option.none => Option.none
        | some s => s.forward input

/-- `ScalingModel::InverseTransform` (source lines 205-232), symmetric to
`ScalingModel.transform`. -/
def ScalingModel.inverseTransform (m : ScalingModel) (h : Heap)
    (input output : Mat) : Option Mat :=
  if m.scalerType = ScalerTag.none then some output
  else
    match m.slot m.scalerType with
    | Option.none => Option.none
    | some a =>
        match h.lookup a with
        | Option.none => Option.none
        | some s => s.inverse input

/-- A sequence of `Fit` calls under the selector's current tag, ignoring
the reported success flags. -/
def fitSeq (m : ScalingModel) (h : Heap) : List Mat → ScalingModel × Heap
  | [] => (m, h)
  | d :: rest =>
      let r := m.fit h d
      fitSeq r.1.1 r.1.2 rest

/-- The selector obtained by constructing a fresh model, setting a tag
and running a sequence of `Fit` calls. -/
def freshFitSeq (minv maxv : Int) (eps : ℚ) (t : ScalerTag) (h : Heap)
    (inputs : List Mat) : ScalingModel :=
  (fitSeq ((ScalingModel.create minv maxv eps).setScalerType t) h inputs).1

namespace ElliotFunction

/-- Scalar overload `ElliotFunction::Fn(double)`:
`x / (1.0 + std::abs(x))` (source lines 49-52). -/
def Fn (x : ℚ) : ℚ := x / (1 + |x|)

/-- Vector overload `ElliotFunction::Fn(x, y)`, elementwise reading of
`y = x * (1.0 + arma::abs(x))` (source lines 60-64): note the
multiplication where the scalar overload divides. -/
def FnVec (x : List ℚ) : List ℚ := x.map (fun v => v * (1 + |v|))

end ElliotFunction

/-- Auxiliary for the C1 counterexample: fit under MINMAX, switch the tag
to STANDARD, fit again. -/
def c1Model : ScalingModel :=
  let r1 := ((ScalingModel.create 0 1 defaultEpsilon).setScalerType
    ScalerTag.minmax).fit Heap.empty [[2, 4, 6]]
  let r2 := (r1.1.1.setScalerType ScalerTag.standard).fit r1.1.2 [[2, 4, 6]]
  r2.1.1

/-- Auxiliary for C6's witness: a selector fitted once under MINMAX. -/
def c6m : ScalingModel :=
  (((ScalingModel.create 0 1 defaultEpsilon).setScalerType
    ScalerTag.minmax).fit Heap.empty [[2, 4, 6]]).1.1

/-- Auxiliary for C6's witness: the heap after that first fit. -/
def c6h : Heap :=
  (((ScalingModel.create 0 1 defaultEpsilon).setScalerType
    ScalerTag.minmax).fit Heap.empty [[2, 4, 6]]).1.2

/-- Auxiliary for C8: a selector fitted once under STANDARD on good
data. -/
def c8r1 : (ScalingModel × Heap) × Bool :=
  ((ScalingModel.create 0 1 defaultEpsilon).setScalerType
    ScalerTag.standard).fit Heap.empty [[1]]

/-- Auxiliary for C8: the same selector re-fit on malformed (empty)
data, so the delegated fit fails. -/
def c8r2 : (ScalingModel × Heap) × Bool := c8r1.1.1.fit c8r1.1.2 []

/-- Heap evolution that preserves every previously allocated address:
the fresh-address counter does not decrease and every address below the
old counter still dereferences to the same object. -/
def HeapExt (g g' : Heap) : Prop :=
  g.next ≤ g'.next ∧ ∀ x, x < g.next → g'.lookup x = g.lookup x

/-- Heap evolution that preserves every previously allocated address
outside an exclusion set: the fresh-address counter does not decrease
and every address below the old counter that is not in `avoid` still
dereferences to the same object.  Used for copy assignment, whose
interleaved `delete` steps release exactly the target's old instances. -/
def HeapExtAvoid (avoid : List Nat) (g g' : Heap) : Prop :=
  g.next ≤ g'.next ∧
    ∀ x, x < g.next → x ∉ avoid → g'.lookup x = g.lookup x

/-- Auxiliary for C4's witness: a selector fitted once under MINMAX. -/
def c4A : ScalingModel :=
  (((ScalingModel.create 0 1 defaultEpsilon).setScalerType
    ScalerTag.minmax).fit Heap.empty [[2, 4, 6]]).1.1

/-- Auxiliary for C4's witness: the heap after that fit. -/
def c4h : Heap :=
  (((ScalingModel.create 0 1 defaultEpsilon).setScalerType
    ScalerTag.minmax).fit Heap.empty [[2, 4, 6]]).1.2

/-- Auxiliary for C4's witness: a second selector, fitted under STANDARD
on the same heap, to serve as the target of a copy assignment. -/
def c4C : ScalingModel :=
  (((ScalingModel.create 0 1 defaultEpsilon).setScalerType
    ScalerTag.standard).fit c4h [[7]]).1.1

/-- Auxiliary for C4's witness: the heap holding both selectors'
instances. -/
def c4h2 : Heap :=
  (((ScalingModel.create 0 1 defaultEpsilon).setScalerType
    ScalerTag.standard).fit c4h [[7]]).1.2

/-! ### Heap lemmas -/

lemma lookupMem_eraseMem_self (l : List (Nat × Scaler)) (a : Nat) :
    lookupMem (eraseMem l a) a = Option.none := by
  induction l with
  | nil => rfl
  | cons p rest ih =>
      obtain ⟨k, s⟩ := p
      by_cases hk : k = a
      · simp [eraseMem, hk, ih]
      · simp [eraseMem, lookupMem, hk, ih]

lemma lookupMem_eraseMem_ne (l : List (Nat × Scaler)) (a b : Nat)
    (hne : b ≠ a) : lookupMem (eraseMem l a) b = lookupMem l b := by
  induction l with
  | nil => rfl
  | cons p rest ih =>
      obtain ⟨k, s⟩ := p
      by_cases hk : k = a
      · subst hk
        have : ¬ (k = b) := fun hkb => hne (hkb ▸ rfl)
        simp [eraseMem, lookupMem, this, ih]
      · simp only [eraseMem, hk, if_false, lookupMem]
        by_cases hkb : k = b
        · simp [hkb]
        · simp [hkb, ih]

lemma lookupMem_updateMem_ne (l : List (Nat × Scaler)) (a b : Nat)
    (s : Scaler) (hne : b ≠ a) :
    lookupMem (updateMem l a s) b = lookupMem l b := by
  induction l with
  | nil => rfl
  | cons p rest ih =>
      obtain ⟨k, s₀⟩ := p
      by_cases hk : k = a
      · have h1 : ¬ (a = b) := fun hab => hne hab.symm
        have h2 : ¬ (k = b) := by rw [hk]; exact h1
        simp [updateMem, hk, lookupMem, h1, h2, ih]
      · simp only [updateMem, hk, if_false, lookupMem]
        by_cases hkb : k = b
        · simp [hkb]
        · simp [hkb, ih]

lemma Heap.free_next (h : Heap) (sl : Option Nat) :
    (h.free sl).next = h.next := by
  cases sl <;> rfl

lemma Heap.lookup_free_self (h : Heap) (a : Nat) :
    (h.free (some a)).lookup a = Option.none :=
  lookupMem_eraseMem_self h.mem a

lemma Heap.lookup_free_ne (h : Heap) (sl : Option Nat) (b : Nat)
    (hne : ∀ a, sl = some a → b ≠ a) :
    (h.free sl).lookup b = h.lookup b := by
  cases sl with
  | none => rfl
  | some a => exact lookupMem_eraseMem_ne h.mem a b (hne a rfl)

lemma Heap.lookup_alloc_self (h : Heap) (s : Scaler) :
    (h.alloc s).1.lookup (h.alloc s).2 = some s := by
  simp [Heap.alloc, Heap.lookup, lookupMem]

lemma Heap.lookup_alloc_ne (h : Heap) (s : Scaler) (b : Nat)
    (hne : b ≠ h.next) : (h.alloc s).1.lookup b = h.lookup b := by
  have : ¬ (h.next = b) := fun hb => hne hb.symm
  simp [Heap.alloc, Heap.lookup, lookupMem, this]

lemma Heap.lookup_update_ne (h : Heap) (a : Nat) (s : Scaler) (b : Nat)
    (hne : b ≠ a) : (h.update a s).lookup b = h.lookup b :=
  lookupMem_updateMem_ne h.mem a b s hne

lemma Heap.lookup_alloc_update_self (h : Heap) (f s : Scaler) :
    ((h.alloc f).1.update (h.alloc f).2 s).lookup (h.alloc f).2 = some s := by
  simp [Heap.alloc, Heap.update, updateMem, Heap.lookup, lookupMem]

/-! ### fitStep lemmas -/

lemma fitStep_addr (h : Heap) (sl : Option Nat) (fresh : Scaler)
    (input : Mat) : (fitStep h sl fresh input).1.2 = h.next := by
  unfold fitStep
  cases hf : fresh.fitOn input <;>
    simp [hf, Heap.alloc, Heap.free_next]

lemma fitStep_next (h : Heap) (sl : Option Nat) (fresh : Scaler)
    (input : Mat) : (fitStep h sl fresh input).1.1.next = h.next + 1 := by
  unfold fitStep
  cases hf : fresh.fitOn input <;>
    simp [hf, Heap.alloc, Heap.update, Heap.free_next]

lemma fitStep_ok (h : Heap) (sl : Option Nat) (fresh : Scaler)
    (input : Mat) : (fitStep h sl fresh input).2 = matOk input := by
  unfold fitStep Scaler.fitOn
  cases hm : matOk input <;> simp [hm]

lemma fitStep_lookup_fresh (h : Heap) (sl : Option Nat) (fresh : Scaler)
    (input : Mat) :
    (fitStep h sl fresh input).1.1.lookup h.next =
      some ((fresh.fitOn input).getD fresh) := by
  unfold fitStep
  cases hf : fresh.fitOn input with
  | none =>
      have : ((h.free sl).alloc fresh).2 = h.next := by
        simp [Heap.alloc, Heap.free_next]
      simp only [hf, Option.getD]
      rw [← this]
      exact Heap.lookup_alloc_self (h.free sl) fresh
  | some s =>
      have hn : ((h.free sl).alloc fresh).2 = h.next := by
        simp [Heap.alloc, Heap.free_next]
      simp only [hf, Option.getD]
      rw [← hn]
      exact Heap.lookup_alloc_update_self (h.free sl) fresh s

lemma fitStep_lookup_other (h : Heap) (sl : Option Nat) (fresh : Scaler)
    (input : Mat) (x : Nat) (hx : x < h.next)
    (hne : ∀ a, sl = some a → x ≠ a) :
    (fitStep h sl fresh input).1.1.lookup x = h.lookup x := by
  have hx0 : x ≠ (h.free sl).next := by
    rw [Heap.free_next]; omega
  have h1 : ((h.free sl).alloc fresh).1.lookup x = h.lookup x := by
    rw [Heap.lookup_alloc_ne _ _ _ hx0]
    exact Heap.lookup_free_ne h sl x hne
  have h2 : ((h.free sl).alloc fresh).2 = h.next := by
    simp [Heap.alloc, Heap.free_next]
  unfold fitStep
  cases hf : fresh.fitOn input with
  | none => simpa [hf] using h1
  | some s =>
      simp only [hf]
      rw [Heap.lookup_update_ne _ _ _ _ (by rw [h2]; omega)]
      exact h1

lemma fitStep_lookup_old (h : Heap) (a : Nat) (fresh : Scaler)
    (input : Mat) (ha : a < h.next) :
    (fitStep h (some a) fresh input).1.1.lookup a = Option.none := by
  have hx0 : a ≠ (h.free (some a)).next := by
    rw [Heap.free_next]; omega
  have h1 : ((h.free (some a)).alloc fresh).1.lookup a = Option.none := by
    rw [Heap.lookup_alloc_ne _ _ _ hx0]
    exact Heap.lookup_free_self h a
  have h2 : ((h.free (some a)).alloc fresh).2 = h.next := by
    simp [Heap.alloc, Heap.free_next]
  unfold fitStep
  cases hf : fresh.fitOn input with
  | none => simpa [hf] using h1
  | some s =>
      simp only [hf]
      rw [Heap.lookup_update_ne _ _ _ _ (by rw [h2]; omega)]
      exact h1

/-! ### Fit lemmas -/

lemma fit_scalerType (m : ScalingModel) (h : Heap) (d : Mat) :
    ((m.fit h d).1.1).scalerType = m.scalerType := by
  cases ht : m.scalerType <;> simp [ScalingModel.fit, ht]

lemma fit_minValue (m : ScalingModel) (h : Heap) (d : Mat) :
    ((m.fit h d).1.1).minValue = m.minValue := by
  cases ht : m.scalerType <;> simp [ScalingModel.fit, ht]

lemma fit_maxValue (m : ScalingModel) (h : Heap) (d : Mat) :
    ((m.fit h d).1.1).maxValue = m.maxValue := by
  cases ht : m.scalerType <;> simp [ScalingModel.fit, ht]

lemma fit_epsilon (m : ScalingModel) (h : Heap) (d : Mat) :
    ((m.fit h d).1.1).epsilon = m.epsilon := by
  cases ht : m.scalerType <;> simp [ScalingModel.fit, ht]

lemma fit_slot_ne (m : ScalingModel) (h : Heap) (d : Mat) (t' : ScalerTag)
    (hne : t' ≠ m.scalerType) :
    ((m.fit h d).1.1).slot t' = m.slot t' := by
  cases ht : m.scalerType <;> cases t' <;>
    simp_all [ScalingModel.fit, ScalingModel.slot]

lemma fit_slot_self (m : ScalingModel) (h : Heap) (d : Mat)
    (hnn : m.scalerType ≠ ScalerTag.none) :
    ((m.fit h d).1.1).slot m.scalerType = some h.next := by
  cases ht : m.scalerType <;>
    simp_all [ScalingModel.fit, ScalingModel.slot, fitStep_addr]

lemma fit_lookup_fresh (m : ScalingModel) (h : Heap) (d : Mat)
    (hnn : m.scalerType ≠ ScalerTag.none) :
    ((m.fit h d).1.2).lookup h.next =
      some (((m.configured m.scalerType).fitOn d).getD
        (m.configured m.scalerType)) := by
  cases ht : m.scalerType <;>
    simp_all [ScalingModel.fit, fitStep_lookup_fresh]

lemma fit_ok (m : ScalingModel) (h : Heap) (d : Mat)
    (hnn : m.scalerType ≠ ScalerTag.none) :
    (m.fit h d).2 = matOk d := by
  cases ht : m.scalerType <;>
    simp_all [ScalingModel.fit, fitStep_ok]

lemma fit_lookup_old (m : ScalingModel) (h : Heap) (d : Mat) (a : Nat)
    (hsl : m.slot m.scalerType = some a) (ha : a < h.next) :
    ((m.fit h d).1.2).lookup a = Option.none := by
  cases ht : m.scalerType <;>
    rw [ht] at hsl <;> simp only [ScalingModel.slot] at hsl
  case none => exact absurd hsl (by simp)
  case standard => simp only [ScalingModel.fit, ht, hsl]
                   exact fitStep_lookup_old h a _ d ha
  case minmax => simp only [ScalingModel.fit, ht, hsl]
                 exact fitStep_lookup_old h a _ d ha
  case mean => simp only [ScalingModel.fit, ht, hsl]
               exact fitStep_lookup_old h a _ d ha
  case maxabs => simp only [ScalingModel.fit, ht, hsl]
                 exact fitStep_lookup_old h a _ d ha
  case pca => simp only [ScalingModel.fit, ht, hsl]
              exact fitStep_lookup_old h a _ d ha
  case zca => simp only [ScalingModel.fit, ht, hsl]
              exact fitStep_lookup_old h a _ d ha

lemma fit_preservesLookup (m : ScalingModel) (h : Heap) (d : Mat) (x : Nat)
    (hx : x < h.next)
    (hne : ∀ a, m.slot m.scalerType = some a → x ≠ a) :
    ((m.fit h d).1.2).lookup x = h.lookup x := by
  cases ht : m.scalerType
  case none => simp [ScalingModel.fit, ht]
  all_goals (
    simp only [ScalingModel.fit, ht]
    apply fitStep_lookup_other _ _ _ _ _ hx
    intro a ha
    apply hne a
    rw [ht]
    simpa [ScalingModel.slot] using ha)

lemma fit_next (m : ScalingModel) (h : Heap) (d : Mat) :
    h.next ≤ ((m.fit h d).1.2).next := by
  cases ht : m.scalerType <;>
    simp [ScalingModel.fit, ht, fitStep_next]

/-! ### Ownership bookkeeping -/

lemma slot_mem_ownedAddrs (m : ScalingModel) (t : ScalerTag) (a : Nat)
    (hsl : m.slot t = some a) : a ∈ m.ownedAddrs := by
  cases t
  case none => simp [ScalingModel.slot] at hsl
  all_goals simp only [ScalingModel.slot] at hsl
  all_goals simp [ScalingModel.ownedAddrs, hsl]

lemma ownedAddrs_mem_slot (m : ScalingModel) (b : Nat)
    (hb : b ∈ m.ownedAddrs) : ∃ t, m.slot t = some b := by
  simp only [ScalingModel.ownedAddrs, List.mem_append, Option.mem_toList,
    Option.mem_def] at hb
  rcases hb with ((((h1 | h2) | h3) | h4) | h5) | h6
  · exact ⟨.minmax, by simpa [ScalingModel.slot] using h1⟩
  · exact ⟨.maxabs, by simpa [ScalingModel.slot] using h2⟩
  · exact ⟨.mean, by simpa [ScalingModel.slot] using h3⟩
  · exact ⟨.standard, by simpa [ScalingModel.slot] using h4⟩
  · exact ⟨.pca, by simpa [ScalingModel.slot] using h5⟩
  · exact ⟨.zca, by simpa [ScalingModel.slot] using h6⟩

lemma exclusive_of_onlyCurrent (m : ScalingModel)
    (hother : ∀ t', t' ≠ m.scalerType → m.slot t' = Option.none) :
    m.ownedCount ≤ 1 ∧
      ∀ a ∈ m.ownedAddrs, m.slot m.scalerType = some a := by
  cases hts : m.scalerType
  case none =>
    have h1 := hother .minmax (by rw [hts]; decide)
    have h2 := hother .maxabs (by rw [hts]; decide)
    have h3 := hother .mean (by rw [hts]; decide)
    have h4 := hother .standard (by rw [hts]; decide)
    have h5 := hother .pca (by rw [hts]; decide)
    have h6 := hother .zca (by rw [hts]; decide)
    simp only [ScalingModel.slot] at h1 h2 h3 h4 h5 h6
    constructor
    · simp [ScalingModel.ownedCount, ScalingModel.ownedAddrs,
        h1, h2, h3, h4, h5, h6]
    · intro a ha
      simp [ScalingModel.ownedAddrs, h1, h2, h3, h4, h5, h6] at ha
  case standard =>
    have h1 := hother .minmax (by rw [hts]; decide)
    have h2 := hother .maxabs (by rw [hts]; decide)
    have h3 := hother .mean (by rw [hts]; decide)
    have h5 := hother .pca (by rw [hts]; decide)
    have h6 := hother .zca (by rw [hts]; decide)
    simp only [ScalingModel.slot] at h1 h2 h3 h5 h6
    cases hs : m.standardscale with
    | none =>
        constructor
        · simp [ScalingModel.ownedCount, ScalingModel.ownedAddrs,
            h1, h2, h3, h5, h6, hs]
        · intro a ha
          simp [ScalingModel.ownedAddrs, h1, h2, h3, h5, h6, hs] at ha
    | some b =>
        constructor
        · simp [ScalingModel.ownedCount, ScalingModel.ownedAddrs,
            h1, h2, h3, h5, h6, hs]
        · intro a ha
          simp [ScalingModel.ownedAddrs, h1, h2, h3, h5, h6, hs] at ha
          simp [ScalingModel.slot, hs, ha]
  case minmax =>
    have h2 := hother .maxabs (by rw [hts]; decide)
    have h3 := hother .mean (by rw [hts]; decide)
    have h4 := hother .standard (by rw [hts]; decide)
    have h5 := hother .pca (by rw [hts]; decide)
    have h6 := hother .zca (by rw [hts]; decide)
    simp only [ScalingModel.slot] at h2 h3 h4 h5 h6
    cases hs : m.minmaxscale with
    | none =>
        constructor
        · simp [ScalingModel.ownedCount, ScalingModel.ownedAddrs,
            h2, h3, h4, h5, h6, hs]
        · intro a ha
          simp [ScalingModel.ownedAddrs, h2, h3, h4, h5, h6, hs] at ha
    | some b =>
        constructor
        · simp [ScalingModel.ownedCount, ScalingModel.ownedAddrs,
            h2, h3, h4, h5, h6, hs]
        · intro a ha
          simp [ScalingModel.ownedAddrs, h2, h3, h4, h5, h6, hs] at ha
          simp [ScalingModel.slot, hs, ha]
  case mean =>
    have h1 := hother .minmax (by rw [hts]; decide)
    have h2 := hother .maxabs (by rw [hts]; decide)
    have h4 := hother .standard (by rw [hts]; decide)
    have h5 := hother .pca (by rw [hts]; decide)
    have h6 := hother .zca (by rw [hts]; decide)
    simp only [ScalingModel.slot] at h1 h2 h4 h5 h6
    cases hs : m.meanscale with
    | none =>
        constructor
        · simp [ScalingModel.ownedCount, ScalingModel.ownedAddrs,
            h1, h2, h4, h5, h6, hs]
        · intro a ha
          simp [ScalingModel.ownedAddrs, h1, h2, h4, h5, h6, hs] at ha
    | some b =>
        constructor
        · simp [ScalingModel.ownedCount, ScalingModel.ownedAddrs,
            h1, h2, h4, h5, h6, hs]
        · intro a ha
          simp [ScalingModel.ownedAddrs, h1, h2, h4, h5, h6, hs] at ha
          simp [ScalingModel.slot, hs, ha]
  case maxabs =>
    have h1 := hother .minmax (by rw [hts]; decide)
    have h3 := hother .mean (by rw [hts]; decide)
    have h4 := hother .standard (by rw [hts]; decide)
    have h5 := hother .pca (by rw [hts]; decide)
    have h6 := hother .zca (by rw [hts]; decide)
    simp only [ScalingModel.slot] at h1 h3 h4 h5 h6
    cases hs : m.maxabsscale with
    | none =>
        constructor
        · simp [ScalingModel.ownedCount, ScalingModel.ownedAddrs,
            h1, h3, h4, h5, h6, hs]
        · intro a ha
          simp [ScalingModel.ownedAddrs, h1, h3, h4, h5, h6, hs] at ha
    | some b =>
        constructor
        · simp [ScalingModel.ownedCount, ScalingModel.ownedAddrs,
            h1, h3, h4, h5, h6, hs]
        · intro a ha
          simp [ScalingModel.ownedAddrs, h1, h3, h4, h5, h6, hs] at ha
          simp [ScalingModel.slot, hs, ha]
  case pca =>
    have h1 := hother .minmax (by rw [hts]; decide)
    have h2 := hother .maxabs (by rw [hts]; decide)
    have h3 := hother .mean (by rw [hts]; decide)
    have h4 := hother .standard (by rw [hts]; decide)
    have h6 := hother .zca (by rw [hts]; decide)
    simp only [ScalingModel.slot] at h1 h2 h3 h4 h6
    cases hs : m.pcascale with
    | none =>
        constructor
        · simp [ScalingModel.ownedCount, ScalingModel.ownedAddrs,
            h1, h2, h3, h4, h6, hs]
        · intro a ha
          simp [ScalingModel.ownedAddrs, h1, h2, h3, h4, h6, hs] at ha
    | some b =>
        constructor
        · simp [ScalingModel.ownedCount, ScalingModel.ownedAddrs,
            h1, h2, h3, h4, h6, hs]
        · intro a ha
          simp [ScalingModel.ownedAddrs, h1, h2, h3, h4, h6, hs] at ha
          simp [ScalingModel.slot, hs, ha]
  case zca =>
    have h1 := hother .minmax (by rw [hts]; decide)
    have h2 := hother .maxabs (by rw [hts]; decide)
    have h3 := hother .mean (by rw [hts]; decide)
    have h4 := hother .standard (by rw [hts]; decide)
    have h5 := hother .pca (by rw [hts]; decide)
    simp only [ScalingModel.slot] at h1 h2 h3 h4 h5
    cases hs : m.zcascale with
    | none =>
        constructor
        · simp [ScalingModel.ownedCount, ScalingModel.ownedAddrs,
            h1, h2, h3, h4, h5, hs]
        · intro a ha
          simp [ScalingModel.ownedAddrs, h1, h2, h3, h4, h5, hs] at ha
    | some b =>
        constructor
        · simp [ScalingModel.ownedCount, ScalingModel.ownedAddrs,
            h1, h2, h3, h4, h5, hs]
        · intro a ha
          simp [ScalingModel.ownedAddrs, h1, h2, h3, h4, h5, hs] at ha
          simp [ScalingModel.slot, hs, ha]

/-! ### fitSeq lemmas -/

lemma fitSeq_scalerType (inputs : List Mat) :
    ∀ (m : ScalingModel) (h : Heap),
      (fitSeq m h inputs).1.scalerType = m.scalerType := by
  induction inputs with
  | nil => intro m h; rfl
  | cons d rest ih =>
      intro m h
      simp only [fitSeq]
      rw [ih]
      exact fit_scalerType m h d

lemma fitSeq_onlyCurrent (inputs : List Mat) :
    ∀ (m : ScalingModel) (h : Heap),
      (∀ t', t' ≠ m.scalerType → m.slot t' = Option.none) →
      (∀ t', t' ≠ (fitSeq m h inputs).1.scalerType →
        (fitSeq m h inputs).1.slot t' = Option.none) := by
  induction inputs with
  | nil => intro m h hm; simpa [fitSeq] using hm
  | cons d rest ih =>
      intro m h hm
      simp only [fitSeq]
      apply ih
      intro t' ht'
      rw [fit_scalerType] at ht'
      rw [fit_slot_ne m h d t' ht']
      exact hm t' ht'

/-! ### Transform congruence -/

lemma transform_congr (m : ScalingModel) (h h' : Heap) (i o : Mat)
    (hl : ∀ a, m.slot m.scalerType = some a → h'.lookup a = h.lookup a) :
    m.transform h' i o = m.transform h i o := by
  unfold ScalingModel.transform
  by_cases hn : m.scalerType = ScalerTag.none
  · simp [hn]
  · simp only [hn, if_false]
    cases hsl : m.slot m.scalerType with
    | none => rfl
    | some a =>
        have he := hl a hsl
        dsimp only
        rw [he]

/-! ### Claim theorems -/

/-- C1 counterexample: construct a selector, set the tag to MINMAX, fit,
switch the tag to STANDARD, fit again — now two strategy instances (the
stale min-max one and the fresh standard one) are owned simultaneously,
so the exclusivity invariant fails as stated. -/
theorem scalingModel_exclusivity_counterexample :
    c1Model.ownedCount = 2 ∧ ¬ (c1Model.ownedCount ≤ 1)
    ∧ c1Model.minmaxscale = some 0 ∧ c1Model.standardscale = some 1 := by
  decide

/-- C1 (amended): `Fit` replaces only the slot of the current
`scalerType` and leaves every other slot untouched; consequently, for a
sequence of `Fit` calls under one fixed tag starting from a freshly
constructed selector, at most one strategy instance is owned at any
observable point and any owned instance sits in the slot matching
`scalerType`.  (With varying tags, stale instances of other kinds remain
owned, as the counterexample shows.) -/
theorem scalingModel_fixedTag_exclusive
    (minv maxv : Int) (eps : ℚ) (t : ScalerTag) (inputs : List Mat)
    (h : Heap) (m2 : ScalingModel) (h2 : Heap) (d : Mat) (t' : ScalerTag)
    (hne : t' ≠ m2.scalerType) :
    ((freshFitSeq minv maxv eps t h inputs).ownedCount ≤ 1
      ∧ ∀ a ∈ (freshFitSeq minv maxv eps t h inputs).ownedAddrs,
          (freshFitSeq minv maxv eps t h inputs).slot
            (freshFitSeq minv maxv eps t h inputs).scalerType = some a)
    ∧ ((m2.fit h2 d).1.1).slot t' = m2.slot t' := by
  constructor
  · simp only [freshFitSeq]
    apply exclusive_of_onlyCurrent
    apply fitSeq_onlyCurrent
    intro t'' ht''
    cases t'' <;> rfl
  · exact fit_slot_ne m2 h2 d t' hne

/-- Witness for `scalingModel_fixedTag_exclusive` at a concrete fit
sequence and a concrete frame instance. -/
theorem scalingModel_fixedTag_exclusive_witness :
    ((freshFitSeq 0 1 defaultEpsilon ScalerTag.minmax Heap.empty
        [[[2, 4, 6]]]).ownedCount ≤ 1
      ∧ ∀ a ∈ (freshFitSeq 0 1 defaultEpsilon ScalerTag.minmax Heap.empty
            [[[2, 4, 6]]]).ownedAddrs,
          (freshFitSeq 0 1 defaultEpsilon ScalerTag.minmax Heap.empty
            [[[2, 4, 6]]]).slot
            (freshFitSeq 0 1 defaultEpsilon ScalerTag.minmax Heap.empty
              [[[2, 4, 6]]]).scalerType = some a)
    ∧ (((ScalingModel.emptyState.setScalerType ScalerTag.pca).fit
          Heap.empty [[5]]).1.1).slot ScalerTag.standard
        = (ScalingModel.emptyState.setScalerType ScalerTag.pca).slot
            ScalerTag.standard :=
  scalingModel_fixedTag_exclusive 0 1 defaultEpsilon ScalerTag.minmax
    [[[2, 4, 6]]] Heap.empty
    (ScalingModel.emptyState.setScalerType ScalerTag.pca)
    Heap.empty [[5]] ScalerTag.standard (by decide)

/-- C2: the move constructor hands every pointer slot and every scalar
field over to the new selector without copying, and resets the source to
the default-empty state (tag NONE, no owned instance, bounds `0, 1`,
epsilon `0.00005`); afterwards the source owns nothing, so no instance
is owned by both. -/
theorem scalingModel_move_spec (A : ScalingModel) :
    (A.moveFrom.1.scalerType = A.scalerType
      ∧ A.moveFrom.1.minmaxscale = A.minmaxscale
      ∧ A.moveFrom.1.maxabsscale = A.maxabsscale
      ∧ A.moveFrom.1.meanscale = A.meanscale
      ∧ A.moveFrom.1.standardscale = A.standardscale
      ∧ A.moveFrom.1.pcascale = A.pcascale
      ∧ A.moveFrom.1.zcascale = A.zcascale
      ∧ A.moveFrom.1.minValue = A.minValue
      ∧ A.moveFrom.1.maxValue = A.maxValue
      ∧ A.moveFrom.1.epsilon = A.epsilon)
    ∧ A.moveFrom.2 = ScalingModel.emptyState
    ∧ A.moveFrom.2.scalerType = ScalerTag.none
    ∧ A.moveFrom.2.ownedAddrs = []
    ∧ A.moveFrom.2.minValue = 0
    ∧ A.moveFrom.2.maxValue = 1
    ∧ A.moveFrom.2.epsilon = defaultEpsilon
    ∧ ∀ a ∈ A.moveFrom.2.ownedAddrs, a ∉ A.moveFrom.1.ownedAddrs := by
  refine ⟨⟨rfl, rfl, rfl, rfl, rfl, rfl, rfl, rfl, rfl, rfl⟩,
    rfl, rfl, rfl, rfl, rfl, rfl, ?_⟩
  intro a ha
  simp [ScalingModel.moveFrom, ScalingModel.emptyState, ScalingModel.create,
    ScalingModel.ownedAddrs] at ha

/-- C3 evidence: with a tag set but no fit performed, `Transform` and
`InverseTransform` dereference a null strategy pointer (modelled as
`Option.none`, a fault, not an explicit error); with tag NONE they
silently leave the output untouched and report no error.  In neither
situation does the code raise an explicit NotFitted error. -/
theorem scalingModel_unfitted_transform_behavior :
    (((ScalingModel.create 0 1 defaultEpsilon).setScalerType
        ScalerTag.standard).transform Heap.empty [[1]] [[7]] = Option.none)
    ∧ (((ScalingModel.create 0 1 defaultEpsilon).setScalerType
        ScalerTag.standard).inverseTransform Heap.empty [[1]] [[7]]
          = Option.none)
    ∧ ((ScalingModel.create 0 1 defaultEpsilon).transform Heap.empty
        [[1]] [[7]] = some [[7]])
    ∧ ((ScalingModel.create 0 1 defaultEpsilon).inverseTransform Heap.empty
        [[1]] [[7]] = some [[7]]) := by
  decide

/-- C5: copy-assigning a selector to itself takes the early-return branch
of `operator=`: the selector and the heap are returned unchanged, so
nothing is freed, nothing is leaked, and every owned instance still
dereferences to the same object. -/
theorem scalingModel_self_assign_noop (A : ScalingModel) (h : Heap) :
    A.copyAssign A h true = (A, h)
    ∧ (A.copyAssign A h true).1 = A
    ∧ (A.copyAssign A h true).2 = h
    ∧ ∀ a ∈ A.ownedAddrs,
        (A.copyAssign A h true).2.lookup a = h.lookup a :=
  ⟨rfl, rfl, rfl, fun _ _ => rfl⟩

/-- C7: with tag NONE, `Fit` matches none of the six branches: no
instance is constructed or released, model and heap are unchanged and no
error is reported; likewise `Transform` and `InverseTransform` fall
through, leaving the output untouched and raising no error. -/
theorem scalingModel_none_noop (m : ScalingModel) (h : Heap)
    (input output : Mat) (hn : m.scalerType = ScalerTag.none) :
    m.fit h input = ((m, h), true)
    ∧ m.transform h input output = some output
    ∧ m.inverseTransform h input output = some output := by
  refine ⟨?_, ?_, ?_⟩
  · simp [ScalingModel.fit, hn]
  · simp [ScalingModel.transform, hn]
  · simp [ScalingModel.inverseTransform, hn]

/-- Witness for `scalingModel_none_noop` on a freshly constructed
selector. -/
theorem scalingModel_none_noop_witness :
    (ScalingModel.create 0 1 defaultEpsilon).fit Heap.empty [[1]]
        = ((ScalingModel.create 0 1 defaultEpsilon, Heap.empty), true)
    ∧ (ScalingModel.create 0 1 defaultEpsilon).transform Heap.empty
        [[1]] [[7]] = some [[7]]
    ∧ (ScalingModel.create 0 1 defaultEpsilon).inverseTransform Heap.empty
        [[1]] [[7]] = some [[7]] :=
  scalingModel_none_noop _ _ _ _ rfl

/-- C10 evidence: at the input vector `[1]` the vectorized overload
computes `1 * (1 + |1|) = 2` while mapping the scalar overload computes
`1 / (1 + |1|) = 1/2`; the two overloads disagree, contradicting the
documented formula `f(x) = x / (1 + |x|)` which the scalar overload and
the class doc comment both state. -/
theorem elliot_vec_scalar_mismatch :
    ElliotFunction.FnVec [1] = [2]
    ∧ ([1] : List ℚ).map ElliotFunction.Fn = [1 / 2]
    ∧ ElliotFunction.FnVec [1] ≠ ([1] : List ℚ).map ElliotFunction.Fn := by
  refine ⟨?_, ?_, ?_⟩ <;>
    norm_num [ElliotFunction.FnVec, ElliotFunction.Fn]

/-- C6: on a non-NONE tag, `Fit` installs at a fresh address a newly
constructed strategy instance of the matching kind carrying the
selector's configuration (MINMAX gets `(minValue, maxValue)`, PCA and
ZCA get `epsilon`, the rest no parameters), fits it on the data
(reporting the strategy's own verdict), releases the previously owned
instance of that kind, and leaves every other slot and every scalar
field unchanged. -/
theorem scalingModel_fit_dispatch (m : ScalingModel) (h : Heap)
    (input : Mat) (t : ScalerTag) (ht : m.scalerType = t)
    (hnn : t ≠ ScalerTag.none)
    (hwf : ∀ a ∈ m.ownedAddrs, a < h.next) :
    ((m.fit h input).1.1).slot t = some h.next
    ∧ ((m.fit h input).1.2).lookup h.next
        = some (((m.configured t).fitOn input).getD (m.configured t))
    ∧ (m.fit h input).2 = matOk input
    ∧ (∀ a, m.slot t = some a →
        ((m.fit h input).1.2).lookup a = Option.none)
    ∧ (∀ t', t' ≠ t → ((m.fit h input).1.1).slot t' = m.slot t')
    ∧ ((m.fit h input).1.1).scalerType = m.scalerType
    ∧ ((m.fit h input).1.1).minValue = m.minValue
    ∧ ((m.fit h input).1.1).maxValue = m.maxValue
    ∧ ((m.fit h input).1.1).epsilon = m.epsilon := by
  subst ht
  refine ⟨fit_slot_self m h input hnn, fit_lookup_fresh m h input hnn,
    fit_ok m h input hnn, ?_, ?_, fit_scalerType m h input,
    fit_minValue m h input, fit_maxValue m h input,
    fit_epsilon m h input⟩
  · intro a ha
    exact fit_lookup_old m h input a ha
      (hwf a (slot_mem_ownedAddrs m _ a ha))
  · intro t' ht'
    exact fit_slot_ne m h input t' ht'

/-- Witness for `scalingModel_fit_dispatch`: re-fitting the concrete
MINMAX selector installs a fresh configured instance at the next
address. -/
theorem scalingModel_fit_dispatch_witness :
    ((c6m.fit c6h [[5]]).1.1).slot ScalerTag.minmax = some c6h.next
    ∧ ((c6m.fit c6h [[5]]).1.2).lookup c6h.next
        = some (((c6m.configured ScalerTag.minmax).fitOn [[5]]).getD
          (c6m.configured ScalerTag.minmax)) := by
  have hthm := scalingModel_fit_dispatch c6m c6h [[5]] ScalerTag.minmax
    (by decide) (by decide) (by decide)
  exact ⟨hthm.1, hthm.2.1⟩

/-- C8 counterexample: when the delegated fit fails, the selector is
left owning a freshly constructed, unfitted instance (address 1) — the
prior instance (address 0) has already been released — so it is neither
in its prior ownership state nor in the EMPTY state, contradicting the
claim's dichotomy. -/
theorem scalingModel_fit_failure_counterexample :
    c8r2.2 = false
    ∧ c8r1.1.1.standardscale = some 0
    ∧ c8r1.1.2.lookup 0 = some (Scaler.standard (some [[1]]))
    ∧ c8r2.1.1.standardscale = some 1
    ∧ c8r2.1.1.standardscale ≠ c8r1.1.1.standardscale
    ∧ c8r2.1.1.standardscale ≠ Option.none
    ∧ c8r2.1.2.lookup 1 = some (Scaler.standard Option.none)
    ∧ c8r2.1.2.lookup 0 = Option.none := by
  decide

/-- C8 (amended): when the delegated fit fails on a non-NONE tag, the
failure is reported to the caller unchanged (no validation, retry or
recovery is added), the previously owned instance of the current kind
has been released (no leak and no double ownership), and the selector is
left owning a freshly constructed, unfitted instance of the current kind
at a fresh address — a third state that is neither the prior ownership
state nor EMPTY; all other slots are untouched. -/
theorem scalingModel_fit_failure_spec (m : ScalingModel) (h : Heap)
    (input : Mat) (t : ScalerTag) (ht : m.scalerType = t)
    (hnn : t ≠ ScalerTag.none)
    (hwf : ∀ a ∈ m.ownedAddrs, a < h.next)
    (hfail : matOk input = false) :
    (m.fit h input).2 = false
    ∧ ((m.fit h input).1.1).slot t = some h.next
    ∧ ((m.fit h input).1.2).lookup h.next = some (m.configured t)
    ∧ (m.configured t).fitted = Option.none
    ∧ (∀ a, m.slot t = some a →
        ((m.fit h input).1.2).lookup a = Option.none)
    ∧ (∀ t', t' ≠ t → ((m.fit h input).1.1).slot t' = m.slot t') := by
  subst ht
  have hfo : (m.configured m.scalerType).fitOn input = Option.none := by
    simp [Scaler.fitOn, hfail]
  refine ⟨?_, fit_slot_self m h input hnn, ?_, ?_, ?_, ?_⟩
  · rw [fit_ok m h input hnn, hfail]
  · rw [fit_lookup_fresh m h input hnn, hfo]
    rfl
  · cases hts : m.scalerType <;>
      simp [ScalingModel.configured, Scaler.fitted]
  · intro a ha
    exact fit_lookup_old m h input a ha
      (hwf a (slot_mem_ownedAddrs m _ a ha))
  · intro t' ht'
    exact fit_slot_ne m h input t' ht'

/-- Witness for `scalingModel_fit_failure_spec` on the concrete failing
re-fit. -/
theorem scalingModel_fit_failure_spec_witness :
    (c8r1.1.1.fit c8r1.1.2 []).2 = false
    ∧ ((c8r1.1.1.fit c8r1.1.2 []).1.2).lookup c8r1.1.2.next
        = some (c8r1.1.1.configured ScalerTag.standard) := by
  have hthm := scalingModel_fit_failure_spec c8r1.1.1 c8r1.1.2 []
    ScalerTag.standard (by decide) (by decide) (by decide) (by decide)
  exact ⟨hthm.1, hthm.2.2.1⟩

/-! ### Copy machinery -/

lemma HeapExt.refl (g : Heap) : HeapExt g g :=
  ⟨le_refl _, fun _ _ => Eq.refl _⟩

lemma HeapExt.trans {g g' g'' : Heap} (h1 : HeapExt g g')
    (h2 : HeapExt g' g'') : HeapExt g g'' :=
  ⟨le_trans h1.1 h2.1,
   fun x hx => by rw [h2.2 x (lt_of_lt_of_le hx h1.1), h1.2 x hx]⟩

lemma copySlot_next_le (h : Heap) (sl : Option Nat) :
    h.next ≤ (copySlot h sl).1.next := by
  cases sl with
  | none => simp [copySlot]
  | some a =>
      cases hl : h.lookup a with
      | none => simp [copySlot, hl]
      | some s =>
          simp only [copySlot, hl, Heap.alloc]
          omega

lemma copySlot_preserves (h : Heap) (sl : Option Nat) (x : Nat)
    (hx : x < h.next) : (copySlot h sl).1.lookup x = h.lookup x := by
  cases sl with
  | none => rfl
  | some a =>
      cases hl : h.lookup a with
      | none => simp [copySlot, hl]
      | some s =>
          simp only [copySlot, hl]
          exact Heap.lookup_alloc_ne h s x (by omega)

lemma copySlot_ext (h : Heap) (sl : Option Nat) :
    HeapExt h (copySlot h sl).1 :=
  ⟨copySlot_next_le h sl, fun x hx => copySlot_preserves h sl x hx⟩

lemma copySlot_isSome (h : Heap) (sl : Option Nat)
    (hsl : ∀ a, sl = some a → (h.lookup a).isSome = true) :
    (copySlot h sl).2.isSome = sl.isSome := by
  cases sl with
  | none => rfl
  | some a =>
      have hs := hsl a rfl
      cases hl : h.lookup a with
      | none => rw [hl] at hs; simp at hs
      | some s => simp [copySlot, hl]

lemma copySlot_some (h : Heap) (a : Nat)
    (hsome : (h.lookup a).isSome = true) :
    (copySlot h (some a)).2 = some h.next
    ∧ (copySlot h (some a)).1.lookup h.next = h.lookup a
    ∧ (copySlot h (some a)).1.next = h.next + 1 := by
  cases hl : h.lookup a with
  | none => rw [hl] at hsome; simp at hsome
  | some s =>
      refine ⟨by simp [copySlot, hl, Heap.alloc], ?_,
        by simp [copySlot, hl, Heap.alloc]⟩
      have hl' : lookupMem h.mem a = some s := hl
      simp [copySlot, hl, hl', Heap.alloc, Heap.lookup, lookupMem]

lemma copyFrom_spec (A : ScalingModel) (h : Heap)
    (hA : ∀ a ∈ A.ownedAddrs, a < h.next ∧ (h.lookup a).isSome = true) :
    (h.next ≤ (A.copyFrom h).2.next)
    ∧ (∀ x, x < h.next → (A.copyFrom h).2.lookup x = h.lookup x)
    ∧ (∀ t, ((A.copyFrom h).1.slot t).isSome = (A.slot t).isSome)
    ∧ (∀ t a b, A.slot t = some a → (A.copyFrom h).1.slot t = some b →
        h.next ≤ b ∧ b < (A.copyFrom h).2.next
          ∧ (A.copyFrom h).2.lookup b = h.lookup a)
    ∧ ((A.copyFrom h).1.scalerType = A.scalerType
        ∧ (A.copyFrom h).1.minValue = A.minValue
        ∧ (A.copyFrom h).1.maxValue = A.maxValue
        ∧ (A.copyFrom h).1.epsilon = A.epsilon) := by
  have hmm : ∀ a, A.minmaxscale = some a →
      a < h.next ∧ (h.lookup a).isSome = true := fun a ha =>
    hA a (slot_mem_ownedAddrs A .minmax a
      (by simpa [ScalingModel.slot] using ha))
  have hma : ∀ a, A.maxabsscale = some a →
      a < h.next ∧ (h.lookup a).isSome = true := fun a ha =>
    hA a (slot_mem_ownedAddrs A .maxabs a
      (by simpa [ScalingModel.slot] using ha))
  have hpc : ∀ a, A.pcascale = some a →
      a < h.next ∧ (h.lookup a).isSome = true := fun a ha =>
    hA a (slot_mem_ownedAddrs A .pca a
      (by simpa [ScalingModel.slot] using ha))
  have hzc : ∀ a, A.zcascale = some a →
      a < h.next ∧ (h.lookup a).isSome = true := fun a ha =>
    hA a (slot_mem_ownedAddrs A .zca a
      (by simpa [ScalingModel.slot] using ha))
  have hme : ∀ a, A.meanscale = some a →
      a < h.next ∧ (h.lookup a).isSome = true := fun a ha =>
    hA a (slot_mem_ownedAddrs A .mean a
      (by simpa [ScalingModel.slot] using ha))
  have hst : ∀ a, A.standardscale = some a →
      a < h.next ∧ (h.lookup a).isSome = true := fun a ha =>
    hA a (slot_mem_ownedAddrs A .standard a
      (by simpa [ScalingModel.slot] using ha))
  simp only [ScalingModel.copyFrom]
  set q1 := copySlot h A.minmaxscale with hq1
  set q2 := copySlot q1.1 A.maxabsscale with hq2
  set q3 := copySlot q2.1 A.pcascale with hq3
  set q4 := copySlot q3.1 A.zcascale with hq4
  set q5 := copySlot q4.1 A.meanscale with hq5
  set q6 := copySlot q5.1 A.standardscale with hq6
  have E01 : HeapExt h q1.1 := by
    rw [hq1]; exact copySlot_ext h A.minmaxscale
  have E12 : HeapExt q1.1 q2.1 := by
    rw [hq2]; exact copySlot_ext q1.1 A.maxabsscale
  have E23 : HeapExt q2.1 q3.1 := by
    rw [hq3]; exact copySlot_ext q2.1 A.pcascale
  have E34 : HeapExt q3.1 q4.1 := by
    rw [hq4]; exact copySlot_ext q3.1 A.zcascale
  have E45 : HeapExt q4.1 q5.1 := by
    rw [hq5]; exact copySlot_ext q4.1 A.meanscale
  have E56 : HeapExt q5.1 q6.1 := by
    rw [hq6]; exact copySlot_ext q5.1 A.standardscale
  have E16 : HeapExt q1.1 q6.1 :=
    E12.trans (E23.trans (E34.trans (E45.trans E56)))
  have E26 : HeapExt q2.1 q6.1 := E23.trans (E34.trans (E45.trans E56))
  have E36 : HeapExt q3.1 q6.1 := E34.trans (E45.trans E56)
  have E46 : HeapExt q4.1 q6.1 := E45.trans E56
  have E02 : HeapExt h q2.1 := E01.trans E12
  have E03 : HeapExt h q3.1 := E02.trans E23
  have E04 : HeapExt h q4.1 := E03.trans E34
  have E05 : HeapExt h q5.1 := E04.trans E45
  have E06 : HeapExt h q6.1 := E05.trans E56
  refine ⟨E06.1, fun x hx => E06.2 x hx, ?_, ?_, trivial, trivial,
    trivial, trivial⟩
  · intro t
    cases t
    case none => rfl
    case minmax =>
      show (q1.2).isSome = A.minmaxscale.isSome
      rw [hq1]
      exact copySlot_isSome h A.minmaxscale (fun a ha => (hmm a ha).2)
    case maxabs =>
      show (q2.2).isSome = A.maxabsscale.isSome
      rw [hq2]
      refine copySlot_isSome q1.1 A.maxabsscale (fun a ha => ?_)
      rw [E01.2 a (hma a ha).1]
      exact (hma a ha).2
    case pca =>
      show (q3.2).isSome = A.pcascale.isSome
      rw [hq3]
      refine copySlot_isSome q2.1 A.pcascale (fun a ha => ?_)
      rw [E02.2 a (hpc a ha).1]
      exact (hpc a ha).2
    case zca =>
      show (q4.2).isSome = A.zcascale.isSome
      rw [hq4]
      refine copySlot_isSome q3.1 A.zcascale (fun a ha => ?_)
      rw [E03.2 a (hzc a ha).1]
      exact (hzc a ha).2
    case mean =>
      show (q5.2).isSome = A.meanscale.isSome
      rw [hq5]
      refine copySlot_isSome q4.1 A.meanscale (fun a ha => ?_)
      rw [E04.2 a (hme a ha).1]
      exact (hme a ha).2
    case standard =>
      show (q6.2).isSome = A.standardscale.isSome
      rw [hq6]
      refine copySlot_isSome q5.1 A.standardscale (fun a ha => ?_)
      rw [E05.2 a (hst a ha).1]
      exact (hst a ha).2
  · intro t a b ha hb
    cases t
    case none => simp [ScalingModel.slot] at ha
    case minmax =>
      simp only [ScalingModel.slot] at ha hb
      obtain ⟨hlt, hs⟩ := hmm a ha
      rw [hq1, ha] at hb
      obtain ⟨hc1, hc2, hc3⟩ := copySlot_some h a hs
      rw [hc1] at hb
      have hbv : h.next = b := Option.some.inj hb
      subst hbv
      have hlt1 : h.next < q1.1.next := by rw [hq1, ha, hc3]; omega
      refine ⟨le_refl _, lt_of_lt_of_le hlt1 E16.1, ?_⟩
      rw [E16.2 h.next hlt1, hq1, ha]
      exact hc2
    case maxabs =>
      simp only [ScalingModel.slot] at ha hb
      obtain ⟨hlt, hs⟩ := hma a ha
      have hs1 : (q1.1.lookup a).isSome = true := by
        rw [E01.2 a hlt]; exact hs
      rw [hq2, ha] at hb
      obtain ⟨hc1, hc2, hc3⟩ := copySlot_some q1.1 a hs1
      rw [hc1] at hb
      have hbv : q1.1.next = b := Option.some.inj hb
      subst hbv
      have hlt1 : q1.1.next < q2.1.next := by rw [hq2, ha, hc3]; omega
      refine ⟨E01.1, lt_of_lt_of_le hlt1 E26.1, ?_⟩
      rw [E26.2 q1.1.next hlt1, hq2, ha, hc2]
      exact E01.2 a hlt
    case pca =>
      simp only [ScalingModel.slot] at ha hb
      obtain ⟨hlt, hs⟩ := hpc a ha
      have hs1 : (q2.1.lookup a).isSome = true := by
        rw [E02.2 a hlt]; exact hs
      rw [hq3, ha] at hb
      obtain ⟨hc1, hc2, hc3⟩ := copySlot_some q2.1 a hs1
      rw [hc1] at hb
      have hbv : q2.1.next = b := Option.some.inj hb
      subst hbv
      have hlt1 : q2.1.next < q3.1.next := by rw [hq3, ha, hc3]; omega
      refine ⟨E02.1, lt_of_lt_of_le hlt1 E36.1, ?_⟩
      rw [E36.2 q2.1.next hlt1, hq3, ha, hc2]
      exact E02.2 a hlt
    case zca =>
      simp only [ScalingModel.slot] at ha hb
      obtain ⟨hlt, hs⟩ := hzc a ha
      have hs1 : (q3.1.lookup a).isSome = true := by
        rw [E03.2 a hlt]; exact hs
      rw [hq4, ha] at hb
      obtain ⟨hc1, hc2, hc3⟩ := copySlot_some q3.1 a hs1
      rw [hc1] at hb
      have hbv : q3.1.next = b := Option.some.inj hb
      subst hbv
      have hlt1 : q3.1.next < q4.1.next := by rw [hq4, ha, hc3]; omega
      refine ⟨E03.1, lt_of_lt_of_le hlt1 E46.1, ?_⟩
      rw [E46.2 q3.1.next hlt1, hq4, ha, hc2]
      exact E03.2 a hlt
    case mean =>
      simp only [ScalingModel.slot] at ha hb
      obtain ⟨hlt, hs⟩ := hme a ha
      have hs1 : (q4.1.lookup a).isSome = true := by
        rw [E04.2 a hlt]; exact hs
      rw [hq5, ha] at hb
      obtain ⟨hc1, hc2, hc3⟩ := copySlot_some q4.1 a hs1
      rw [hc1] at hb
      have hbv : q4.1.next = b := Option.some.inj hb
      subst hbv
      have hlt1 : q4.1.next < q5.1.next := by rw [hq5, ha, hc3]; omega
      refine ⟨E04.1, lt_of_lt_of_le hlt1 E56.1, ?_⟩
      rw [E56.2 q4.1.next hlt1, hq5, ha, hc2]
      exact E04.2 a hlt
    case standard =>
      simp only [ScalingModel.slot] at ha hb
      obtain ⟨hlt, hs⟩ := hst a ha
      have hs1 : (q5.1.lookup a).isSome = true := by
        rw [E05.2 a hlt]; exact hs
      rw [hq6, ha] at hb
      obtain ⟨hc1, hc2, hc3⟩ := copySlot_some q5.1 a hs1
      rw [hc1] at hb
      have hbv : q5.1.next = b := Option.some.inj hb
      subst hbv
      have hlt1 : q5.1.next < q6.1.next := by rw [hq6, ha, hc3]; omega
      refine ⟨E05.1, hlt1, ?_⟩
      rw [hq6, ha, hc2]
      exact E05.2 a hlt

lemma HeapExtAvoid.comp {av : List Nat} {g g' g'' : Heap}
    (h1 : HeapExtAvoid av g g') (h2 : HeapExtAvoid av g' g'') :
    HeapExtAvoid av g g'' :=
  ⟨le_trans h1.1 h2.1,
   fun x hx hxa => by
     rw [h2.2 x (lt_of_lt_of_le hx h1.1) hxa, h1.2 x hx hxa]⟩

lemma free_extAvoid (g : Heap) (sl : Option Nat) (avoid : List Nat)
    (hin : ∀ c, sl = some c → c ∈ avoid) :
    HeapExtAvoid avoid g (g.free sl) := by
  refine ⟨by rw [Heap.free_next], ?_⟩
  intro x hx hxa
  refine Heap.lookup_free_ne g sl x ?_
  intro c hc hxc
  exact hxa (hxc ▸ hin c hc)

lemma copySlot_extAvoid (g : Heap) (sl : Option Nat) (avoid : List Nat) :
    HeapExtAvoid avoid g (copySlot g sl).1 :=
  ⟨copySlot_next_le g sl, fun x hx _ => copySlot_preserves g sl x hx⟩

lemma copyAssign_spec (C A : ScalingModel) (h : Heap)
    (hA : ∀ a ∈ A.ownedAddrs, a < h.next ∧ (h.lookup a).isSome = true)
    (hC : ∀ c ∈ C.ownedAddrs, c < h.next)
    (hdisj : ∀ a ∈ A.ownedAddrs, a ∉ C.ownedAddrs) :
    (h.next ≤ (C.copyAssign A h false).2.next)
    ∧ (∀ x, x < h.next → x ∉ C.ownedAddrs →
        (C.copyAssign A h false).2.lookup x = h.lookup x)
    ∧ (∀ t, ((C.copyAssign A h false).1.slot t).isSome = (A.slot t).isSome)
    ∧ (∀ t a b, A.slot t = some a →
        (C.copyAssign A h false).1.slot t = some b →
        h.next ≤ b ∧ b < (C.copyAssign A h false).2.next
          ∧ (C.copyAssign A h false).2.lookup b = h.lookup a)
    ∧ ((C.copyAssign A h false).1.scalerType = A.scalerType
        ∧ (C.copyAssign A h false).1.minValue = A.minValue
        ∧ (C.copyAssign A h false).1.maxValue = A.maxValue
        ∧ (C.copyAssign A h false).1.epsilon = A.epsilon) := by
  have hmmA : ∀ a, A.minmaxscale = some a →
      a < h.next ∧ (h.lookup a).isSome = true ∧ a ∉ C.ownedAddrs := by
    intro a ha
    have hm := slot_mem_ownedAddrs A .minmax a
      (by simpa [ScalingModel.slot] using ha)
    exact ⟨(hA a hm).1, (hA a hm).2, hdisj a hm⟩
  have hmaA : ∀ a, A.maxabsscale = some a →
      a < h.next ∧ (h.lookup a).isSome = true ∧ a ∉ C.ownedAddrs := by
    intro a ha
    have hm := slot_mem_ownedAddrs A .maxabs a
      (by simpa [ScalingModel.slot] using ha)
    exact ⟨(hA a hm).1, (hA a hm).2, hdisj a hm⟩
  have hstA : ∀ a, A.standardscale = some a →
      a < h.next ∧ (h.lookup a).isSome = true ∧ a ∉ C.ownedAddrs := by
    intro a ha
    have hm := slot_mem_ownedAddrs A .standard a
      (by simpa [ScalingModel.slot] using ha)
    exact ⟨(hA a hm).1, (hA a hm).2, hdisj a hm⟩
  have hmeA : ∀ a, A.meanscale = some a →
      a < h.next ∧ (h.lookup a).isSome = true ∧ a ∉ C.ownedAddrs := by
    intro a ha
    have hm := slot_mem_ownedAddrs A .mean a
      (by simpa [ScalingModel.slot] using ha)
    exact ⟨(hA a hm).1, (hA a hm).2, hdisj a hm⟩
  have hpcA : ∀ a, A.pcascale = some a →
      a < h.next ∧ (h.lookup a).isSome = true ∧ a ∉ C.ownedAddrs := by
    intro a ha
    have hm := slot_mem_ownedAddrs A .pca a
      (by simpa [ScalingModel.slot] using ha)
    exact ⟨(hA a hm).1, (hA a hm).2, hdisj a hm⟩
  have hzcA : ∀ a, A.zcascale = some a →
      a < h.next ∧ (h.lookup a).isSome = true ∧ a ∉ C.ownedAddrs := by
    intro a ha
    have hm := slot_mem_ownedAddrs A .zca a
      (by simpa [ScalingModel.slot] using ha)
    exact ⟨(hA a hm).1, (hA a hm).2, hdisj a hm⟩
  simp only [ScalingModel.copyAssign, Bool.false_eq_true, if_false]
  set u1 := h.free C.minmaxscale with hu1
  set q1 := copySlot u1 A.minmaxscale with hq1
  set u2 := q1.1.free C.maxabsscale with hu2
  set q2 := copySlot u2 A.maxabsscale with hq2
  set u3 := q2.1.free C.standardscale with hu3
  set q3 := copySlot u3 A.standardscale with hq3
  set u4 := q3.1.free C.meanscale with hu4
  set q4 := copySlot u4 A.meanscale with hq4
  set u5 := q4.1.free C.pcascale with hu5
  set q5 := copySlot u5 A.pcascale with hq5
  set u6 := q5.1.free C.zcascale with hu6
  set q6 := copySlot u6 A.zcascale with hq6
  have X1 : HeapExtAvoid C.ownedAddrs h u1 := by
    rw [hu1]
    exact free_extAvoid h C.minmaxscale C.ownedAddrs (fun c hc =>
      slot_mem_ownedAddrs C .minmax c (by simpa [ScalingModel.slot] using hc))
  have Y1 : HeapExtAvoid C.ownedAddrs u1 q1.1 := by
    rw [hq1]; exact copySlot_extAvoid u1 A.minmaxscale C.ownedAddrs
  have X2 : HeapExtAvoid C.ownedAddrs q1.1 u2 := by
    rw [hu2]
    exact free_extAvoid q1.1 C.maxabsscale C.ownedAddrs (fun c hc =>
      slot_mem_ownedAddrs C .maxabs c (by simpa [ScalingModel.slot] using hc))
  have Y2 : HeapExtAvoid C.ownedAddrs u2 q2.1 := by
    rw [hq2]; exact copySlot_extAvoid u2 A.maxabsscale C.ownedAddrs
  have X3 : HeapExtAvoid C.ownedAddrs q2.1 u3 := by
    rw [hu3]
    exact free_extAvoid q2.1 C.standardscale C.ownedAddrs (fun c hc =>
      slot_mem_ownedAddrs C .standard c
        (by simpa [ScalingModel.slot] using hc))
  have Y3 : HeapExtAvoid C.ownedAddrs u3 q3.1 := by
    rw [hq3]; exact copySlot_extAvoid u3 A.standardscale C.ownedAddrs
  have X4 : HeapExtAvoid C.ownedAddrs q3.1 u4 := by
    rw [hu4]
    exact free_extAvoid q3.1 C.meanscale C.ownedAddrs (fun c hc =>
      slot_mem_ownedAddrs C .mean c (by simpa [ScalingModel.slot] using hc))
  have Y4 : HeapExtAvoid C.ownedAddrs u4 q4.1 := by
    rw [hq4]; exact copySlot_extAvoid u4 A.meanscale C.ownedAddrs
  have X5 : HeapExtAvoid C.ownedAddrs q4.1 u5 := by
    rw [hu5]
    exact free_extAvoid q4.1 C.pcascale C.ownedAddrs (fun c hc =>
      slot_mem_ownedAddrs C .pca c (by simpa [ScalingModel.slot] using hc))
  have Y5 : HeapExtAvoid C.ownedAddrs u5 q5.1 := by
    rw [hq5]; exact copySlot_extAvoid u5 A.pcascale C.ownedAddrs
  have X6 : HeapExtAvoid C.ownedAddrs q5.1 u6 := by
    rw [hu6]
    exact free_extAvoid q5.1 C.zcascale C.ownedAddrs (fun c hc =>
      slot_mem_ownedAddrs C .zca c (by simpa [ScalingModel.slot] using hc))
  have Y6 : HeapExtAvoid C.ownedAddrs u6 q6.1 := by
    rw [hq6]; exact copySlot_extAvoid u6 A.zcascale C.ownedAddrs
  have U1 : HeapExtAvoid C.ownedAddrs h u1 := X1
  have P1 : HeapExtAvoid C.ownedAddrs h q1.1 := X1.comp Y1
  have U2 : HeapExtAvoid C.ownedAddrs h u2 := P1.comp X2
  have P2 : HeapExtAvoid C.ownedAddrs h q2.1 := U2.comp Y2
  have U3 : HeapExtAvoid C.ownedAddrs h u3 := P2.comp X3
  have P3 : HeapExtAvoid C.ownedAddrs h q3.1 := U3.comp Y3
  have U4 : HeapExtAvoid C.ownedAddrs h u4 := P3.comp X4
  have P4 : HeapExtAvoid C.ownedAddrs h q4.1 := U4.comp Y4
  have U5 : HeapExtAvoid C.ownedAddrs h u5 := P4.comp X5
  have P5 : HeapExtAvoid C.ownedAddrs h q5.1 := U5.comp Y5
  have U6 : HeapExtAvoid C.ownedAddrs h u6 := P5.comp X6
  have P6 : HeapExtAvoid C.ownedAddrs h q6.1 := U6.comp Y6
  have T5 : HeapExtAvoid C.ownedAddrs q5.1 q6.1 := X6.comp Y6
  have T4 : HeapExtAvoid C.ownedAddrs q4.1 q6.1 := X5.comp (Y5.comp T5)
  have T3 : HeapExtAvoid C.ownedAddrs q3.1 q6.1 := X4.comp (Y4.comp T4)
  have T2 : HeapExtAvoid C.ownedAddrs q2.1 q6.1 := X3.comp (Y3.comp T3)
  have T1 : HeapExtAvoid C.ownedAddrs q1.1 q6.1 := X2.comp (Y2.comp T2)
  refine ⟨P6.1, fun x hx hxa => P6.2 x hx hxa, ?_, ?_, trivial, trivial,
    trivial, trivial⟩
  · intro t
    cases t
    case none => rfl
    case minmax =>
      show (q1.2).isSome = A.minmaxscale.isSome
      rw [hq1]
      refine copySlot_isSome u1 A.minmaxscale (fun a ha => ?_)
      obtain ⟨hlt, hs, hna⟩ := hmmA a ha
      rw [U1.2 a hlt hna]
      exact hs
    case maxabs =>
      show (q2.2).isSome = A.maxabsscale.isSome
      rw [hq2]
      refine copySlot_isSome u2 A.maxabsscale (fun a ha => ?_)
      obtain ⟨hlt, hs, hna⟩ := hmaA a ha
      rw [U2.2 a hlt hna]
      exact hs
    case standard =>
      show (q3.2).isSome = A.standardscale.isSome
      rw [hq3]
      refine copySlot_isSome u3 A.standardscale (fun a ha => ?_)
      obtain ⟨hlt, hs, hna⟩ := hstA a ha
      rw [U3.2 a hlt hna]
      exact hs
    case mean =>
      show (q4.2).isSome = A.meanscale.isSome
      rw [hq4]
      refine copySlot_isSome u4 A.meanscale (fun a ha => ?_)
      obtain ⟨hlt, hs, hna⟩ := hmeA a ha
      rw [U4.2 a hlt hna]
      exact hs
    case pca =>
      show (q5.2).isSome = A.pcascale.isSome
      rw [hq5]
      refine copySlot_isSome u5 A.pcascale (fun a ha => ?_)
      obtain ⟨hlt, hs, hna⟩ := hpcA a ha
      rw [U5.2 a hlt hna]
      exact hs
    case zca =>
      show (q6.2).isSome = A.zcascale.isSome
      rw [hq6]
      refine copySlot_isSome u6 A.zcascale (fun a ha => ?_)
      obtain ⟨hlt, hs, hna⟩ := hzcA a ha
      rw [U6.2 a hlt hna]
      exact hs
  · intro t a b ha hb
    cases t
    case none => simp [ScalingModel.slot] at ha
    case minmax =>
      simp only [ScalingModel.slot] at ha hb
      obtain ⟨hlt, hs, hna⟩ := hmmA a ha
      have hs1 : (u1.lookup a).isSome = true := by
        rw [U1.2 a hlt hna]; exact hs
      rw [hq1, ha] at hb
      obtain ⟨hc1, hc2, hc3⟩ := copySlot_some u1 a hs1
      rw [hc1] at hb
      have hbv : u1.next = b := Option.some.inj hb
      subst hbv
      have hlt1 : u1.next < q1.1.next := by rw [hq1, ha, hc3]; omega
      have hbna : u1.next ∉ C.ownedAddrs := by
        intro hmem
        have hcl := hC _ hmem
        have hge := U1.1
        omega
      refine ⟨U1.1, lt_of_lt_of_le hlt1 T1.1, ?_⟩
      rw [T1.2 u1.next hlt1 hbna, hq1, ha, hc2]
      exact U1.2 a hlt hna
    case maxabs =>
      simp only [ScalingModel.slot] at ha hb
      obtain ⟨hlt, hs, hna⟩ := hmaA a ha
      have hs1 : (u2.lookup a).isSome = true := by
        rw [U2.2 a hlt hna]; exact hs
      rw [hq2, ha] at hb
      obtain ⟨hc1, hc2, hc3⟩ := copySlot_some u2 a hs1
      rw [hc1] at hb
      have hbv : u2.next = b := Option.some.inj hb
      subst hbv
      have hlt1 : u2.next < q2.1.next := by rw [hq2, ha, hc3]; omega
      have hbna : u2.next ∉ C.ownedAddrs := by
        intro hmem
        have hcl := hC _ hmem
        have hge := U2.1
        omega
      refine ⟨U2.1, lt_of_lt_of_le hlt1 T2.1, ?_⟩
      rw [T2.2 u2.next hlt1 hbna, hq2, ha, hc2]
      exact U2.2 a hlt hna
    case standard =>
      simp only [ScalingModel.slot] at ha hb
      obtain ⟨hlt, hs, hna⟩ := hstA a ha
      have hs1 : (u3.lookup a).isSome = true := by
        rw [U3.2 a hlt hna]; exact hs
      rw [hq3, ha] at hb
      obtain ⟨hc1, hc2, hc3⟩ := copySlot_some u3 a hs1
      rw [hc1] at hb
      have hbv : u3.next = b := Option.some.inj hb
      subst hbv
      have hlt1 : u3.next < q3.1.next := by rw [hq3, ha, hc3]; omega
      have hbna : u3.next ∉ C.ownedAddrs := by
        intro hmem
        have hcl := hC _ hmem
        have hge := U3.1
        omega
      refine ⟨U3.1, lt_of_lt_of_le hlt1 T3.1, ?_⟩
      rw [T3.2 u3.next hlt1 hbna, hq3, ha, hc2]
      exact U3.2 a hlt hna
    case mean =>
      simp only [ScalingModel.slot] at ha hb
      obtain ⟨hlt, hs, hna⟩ := hmeA a ha
      have hs1 : (u4.lookup a).isSome = true := by
        rw [U4.2 a hlt hna]; exact hs
      rw [hq4, ha] at hb
      obtain ⟨hc1, hc2, hc3⟩ := copySlot_some u4 a hs1
      rw [hc1] at hb
      have hbv : u4.next = b := Option.some.inj hb
      subst hbv
      have hlt1 : u4.next < q4.1.next := by rw [hq4, ha, hc3]; omega
      have hbna : u4.next ∉ C.ownedAddrs := by
        intro hmem
        have hcl := hC _ hmem
        have hge := U4.1
        omega
      refine ⟨U4.1, lt_of_lt_of_le hlt1 T4.1, ?_⟩
      rw [T4.2 u4.next hlt1 hbna, hq4, ha, hc2]
      exact U4.2 a hlt hna
    case pca =>
      simp only [ScalingModel.slot] at ha hb
      obtain ⟨hlt, hs, hna⟩ := hpcA a ha
      have hs1 : (u5.lookup a).isSome = true := by
        rw [U5.2 a hlt hna]; exact hs
      rw [hq5, ha] at hb
      obtain ⟨hc1, hc2, hc3⟩ := copySlot_some u5 a hs1
      rw [hc1] at hb
      have hbv : u5.next = b := Option.some.inj hb
      subst hbv
      have hlt1 : u5.next < q5.1.next := by rw [hq5, ha, hc3]; omega
      have hbna : u5.next ∉ C.ownedAddrs := by
        intro hmem
        have hcl := hC _ hmem
        have hge := U5.1
        omega
      refine ⟨U5.1, lt_of_lt_of_le hlt1 T5.1, ?_⟩
      rw [T5.2 u5.next hlt1 hbna, hq5, ha, hc2]
      exact U5.2 a hlt hna
    case zca =>
      simp only [ScalingModel.slot] at ha hb
      obtain ⟨hlt, hs, hna⟩ := hzcA a ha
      have hs1 : (u6.lookup a).isSome = true := by
        rw [U6.2 a hlt hna]; exact hs
      rw [hq6, ha] at hb
      obtain ⟨hc1, hc2, hc3⟩ := copySlot_some u6 a hs1
      rw [hc1] at hb
      have hbv : u6.next = b := Option.some.inj hb
      subst hbv
      have hlt1 : u6.next < q6.1.next := by rw [hq6, ha, hc3]; omega
      refine ⟨U6.1, hlt1, ?_⟩
      rw [hq6, ha, hc2]
      exact U6.2 a hlt hna

/-- C4: a copy made by the copy constructor or by copy assignment copies
the scalar fields by value and, per strategy kind, either copies nothing
(when the source owns nothing of that kind) or deep-copies the owned
instance into freshly allocated storage with identical contents; no
address is shared between source and copy, and afterwards re-fitting the
copy does not change the source's `Transform` output on any input, nor
vice versa.  The copy-assignment part additionally assumes the
assignment target's owned instances are allocated and disjoint from the
source's (as C++ ownership discipline guarantees), since `operator=`
releases the target's old instances while installing the copies. -/
theorem scalingModel_copy_deep_independent (A C : ScalingModel) (h : Heap)
    (hA : ∀ a ∈ A.ownedAddrs, a < h.next ∧ (h.lookup a).isSome = true) :
    (((A.copyFrom h).1.scalerType = A.scalerType
      ∧ (A.copyFrom h).1.minValue = A.minValue
      ∧ (A.copyFrom h).1.maxValue = A.maxValue
      ∧ (A.copyFrom h).1.epsilon = A.epsilon)
    ∧ (∀ t, ((A.copyFrom h).1.slot t).isSome = (A.slot t).isSome)
    ∧ (∀ t a b, A.slot t = some a → (A.copyFrom h).1.slot t = some b →
        (A.copyFrom h).2.lookup b = h.lookup a)
    ∧ (∀ a ∈ A.ownedAddrs, a ∉ (A.copyFrom h).1.ownedAddrs)
    ∧ (∀ d i o,
        A.transform (((A.copyFrom h).1.fit (A.copyFrom h).2 d).1.2) i o
          = A.transform h i o)
    ∧ (∀ d i o,
        (A.copyFrom h).1.transform ((A.fit (A.copyFrom h).2 d).1.2) i o
          = (A.copyFrom h).1.transform (A.copyFrom h).2 i o))
    ∧ ((∀ c ∈ C.ownedAddrs, c < h.next) →
       (∀ a ∈ A.ownedAddrs, a ∉ C.ownedAddrs) →
       (((C.copyAssign A h false).1.scalerType = A.scalerType
          ∧ (C.copyAssign A h false).1.minValue = A.minValue
          ∧ (C.copyAssign A h false).1.maxValue = A.maxValue
          ∧ (C.copyAssign A h false).1.epsilon = A.epsilon)
        ∧ (∀ t, ((C.copyAssign A h false).1.slot t).isSome
            = (A.slot t).isSome)
        ∧ (∀ t a b, A.slot t = some a →
            (C.copyAssign A h false).1.slot t = some b →
            (C.copyAssign A h false).2.lookup b = h.lookup a)
        ∧ (∀ a ∈ A.ownedAddrs, a ∉ (C.copyAssign A h false).1.ownedAddrs)
        ∧ (∀ d i o,
            A.transform (((C.copyAssign A h false).1.fit
                (C.copyAssign A h false).2 d).1.2) i o
              = A.transform h i o)
        ∧ (∀ d i o,
            (C.copyAssign A h false).1.transform
                ((A.fit (C.copyAssign A h false).2 d).1.2) i o
              = (C.copyAssign A h false).1.transform
                  (C.copyAssign A h false).2 i o))) := by
  constructor
  · obtain ⟨hle, hpres, hsome, hchar, hscal⟩ := copyFrom_spec A h hA
    refine ⟨hscal, hsome, ?_, ?_, ?_, ?_⟩
    · intro t a b ha hb
      exact (hchar t a b ha hb).2.2
    · intro a haA hbB
      obtain ⟨halt, _⟩ := hA a haA
      obtain ⟨t, hslt⟩ := ownedAddrs_mem_slot _ a hbB
      have hsome_t : (A.slot t).isSome = true := by
        rw [← hsome t, hslt]; rfl
      obtain ⟨a', ha'⟩ := Option.isSome_iff_exists.mp hsome_t
      obtain ⟨hge, _, _⟩ := hchar t a' a ha' hslt
      omega
    · intro d i o
      apply transform_congr
      intro a ha
      obtain ⟨halt, _⟩ := hA a (slot_mem_ownedAddrs A _ a ha)
      have hne : ∀ b,
          (A.copyFrom h).1.slot ((A.copyFrom h).1).scalerType = some b →
          a ≠ b := by
        intro b hbB
        rw [hscal.1] at hbB
        have hsome_t : (A.slot A.scalerType).isSome = true := by
          rw [← hsome A.scalerType, hbB]; rfl
        obtain ⟨a', ha'⟩ := Option.isSome_iff_exists.mp hsome_t
        obtain ⟨hge, _, _⟩ := hchar A.scalerType a' b ha' hbB
        omega
      rw [fit_preservesLookup ((A.copyFrom h).1) ((A.copyFrom h).2) d a
          (lt_of_lt_of_le halt hle) hne]
      exact hpres a halt
    · intro d i o
      apply transform_congr
      intro b hbB
      rw [hscal.1] at hbB
      have hsome_t : (A.slot A.scalerType).isSome = true := by
        rw [← hsome A.scalerType, hbB]; rfl
      obtain ⟨a', ha'⟩ := Option.isSome_iff_exists.mp hsome_t
      obtain ⟨hge, hltB, _⟩ := hchar A.scalerType a' b ha' hbB
      apply fit_preservesLookup A ((A.copyFrom h).2) d b hltB
      intro a ha
      obtain ⟨halt, _⟩ := hA a (slot_mem_ownedAddrs A _ a ha)
      omega

  · intro hC hdisj
    obtain ⟨hle', hpres', hsome', hchar', hscal'⟩ :=
      copyAssign_spec C A h hA hC hdisj
    refine ⟨hscal', hsome', ?_, ?_, ?_, ?_⟩
    · intro t a b ha hb
      exact (hchar' t a b ha hb).2.2
    · intro a haA hbB
      obtain ⟨halt, _⟩ := hA a haA
      obtain ⟨t, hslt⟩ := ownedAddrs_mem_slot _ a hbB
      have hsome_t : (A.slot t).isSome = true := by
        rw [← hsome' t, hslt]; rfl
      obtain ⟨a', ha'⟩ := Option.isSome_iff_exists.mp hsome_t
      obtain ⟨hge, _, _⟩ := hchar' t a' a ha' hslt
      omega
    · intro d i o
      apply transform_congr
      intro a ha
      have hmem := slot_mem_ownedAddrs A _ a ha
      obtain ⟨halt, _⟩ := hA a hmem
      have hne : ∀ b,
          (C.copyAssign A h false).1.slot
            ((C.copyAssign A h false).1).scalerType = some b →
          a ≠ b := by
        intro b hbB
        rw [hscal'.1] at hbB
        have hsome_t : (A.slot A.scalerType).isSome = true := by
          rw [← hsome' A.scalerType, hbB]; rfl
        obtain ⟨a', ha'⟩ := Option.isSome_iff_exists.mp hsome_t
        obtain ⟨hge, _, _⟩ := hchar' A.scalerType a' b ha' hbB
        omega
      rw [fit_preservesLookup ((C.copyAssign A h false).1)
          ((C.copyAssign A h false).2) d a
          (lt_of_lt_of_le halt hle') hne]
      exact hpres' a halt (hdisj a hmem)
    · intro d i o
      apply transform_congr
      intro b hbB
      rw [hscal'.1] at hbB
      have hsome_t : (A.slot A.scalerType).isSome = true := by
        rw [← hsome' A.scalerType, hbB]; rfl
      obtain ⟨a', ha'⟩ := Option.isSome_iff_exists.mp hsome_t
      obtain ⟨hge, hltB, _⟩ := hchar' A.scalerType a' b ha' hbB
      apply fit_preservesLookup A ((C.copyAssign A h false).2) d b hltB
      intro a ha
      obtain ⟨halt, _⟩ := hA a (slot_mem_ownedAddrs A _ a ha)
      omega

/-- Witness for `scalingModel_copy_deep_independent` on concrete fitted
selectors: `c4A` (MINMAX, owning address 0) is copy-constructed and also
copy-assigned onto `c4C` (STANDARD, owning address 1) in the heap
`c4h2`. -/
theorem scalingModel_copy_deep_independent_witness :
    ((c4A.copyFrom c4h2).1.epsilon = c4A.epsilon)
    ∧ (∀ a ∈ c4A.ownedAddrs, a ∉ (c4A.copyFrom c4h2).1.ownedAddrs)
    ∧ ((c4C.copyAssign c4A c4h2 false).1.epsilon = c4A.epsilon)
    ∧ (∀ a ∈ c4A.ownedAddrs,
        a ∉ (c4C.copyAssign c4A c4h2 false).1.ownedAddrs) := by
  have hthm := scalingModel_copy_deep_independent c4A c4C c4h2 (by decide)
  have hassign := hthm.2 (by decide) (by decide)
  exact ⟨hthm.1.1.2.2.2, hthm.1.2.2.2.1, hassign.1.2.2.2,
    hassign.2.2.2.1⟩

end Mlpack
